import Mathlib

/-!
Verification of the RaceStory Pro core (column normalizer, CSV record
parsers, race analyzer) against its design specification.

A pandas DataFrame is modelled as a `Table`: a list of column names plus
rows of cells.  A cell is `none` for a missing value (NaN) and `some s`
for a value rendered as a string; numeric values are handled through the
string parse functions below, mirroring the Python code's `str`/`float`/
`int` conversions.  Functions that can raise an uncaught exception in
Python are modelled in the `Except String` monad; functions that cannot
raise are total.  Python `float` literals are modelled as rationals, with
the parse function covering plain signed decimal literals (the exponent,
infinity and nan spellings of the Python float grammar are not needed by
any of the data formats involved and are omitted).
-/

namespace RaceStory

abbrev Cell := Option String

structure Table where
  cols : List String
  rows : List (List Cell)
deriving DecidableEq, Repr

def Table.empty : Table := ⟨[], []⟩

/-- Index of a column name in the header, modelling pandas label lookup. -/
def colIdx (cols : List String) (c : String) : Option Nat :=
  cols.findIdx? (fun x => x == c)

/-- Model of `row[c]` label access on a Series: `none` is a `KeyError`
(the label is absent), `some cell` is the stored cell. -/
def getCell (cols : List String) (r : List Cell) (c : String) : Option Cell :=
  (colIdx cols c).bind fun i => r.get? i

/-- Model of `str(v)` applied to a cell value: NaN prints as `nan`. -/
def strOfCell : Cell → String
  | none => "nan"
  | some s => s

/-- Model of `str(row.get(c, d))`: the default string `d` on a missing
label, otherwise the stored value rendered as a string. -/
def pyGet (cols : List String) (r : List Cell) (c : String) (d : String) : String :=
  match getCell cols r c with
  | none => d
  | some cell => strOfCell cell

/-! ### Python numeric string parsing -/

def isWs (c : Char) : Bool := c = ' ' || c = '\t' || c = '\n' || c = '\r'

def trimWs (l : List Char) : List Char :=
  ((l.dropWhile isWs).reverse.dropWhile isWs).reverse

/-- Model of Python `str.strip()`. -/
def strip (s : String) : String :=
  ⟨trimWs s.data⟩

/-- Model of Python `str.upper()`. -/
def upcase (s : String) : String :=
  ⟨s.data.map Char.toUpper⟩

def digitsVal (l : List Char) : Nat :=
  l.foldl (fun a c => a * 10 + (c.toNat - 48)) 0

/-- Unsigned decimal literal: `digits`, `digits.digits`, `digits.` or
`.digits`, valued as a rational. -/
def parseUnsignedDec (l : List Char) : Option ℚ :=
  let ds := l.takeWhile Char.isDigit
  let rest := l.dropWhile Char.isDigit
  match rest with
  | [] => if ds.isEmpty then none else some (digitsVal ds)
  | '.' :: frac =>
      if frac.all Char.isDigit then
        if ds.isEmpty && frac.isEmpty then none
        else some ((digitsVal ds : ℚ) + (digitsVal frac : ℚ) / (10 ^ frac.length))
      else none
  | _ => none

def parseSignedDec (l : List Char) : Option ℚ :=
  match l with
  | '+' :: r => parseUnsignedDec r
  | '-' :: r => (parseUnsignedDec r).map Neg.neg
  | _ => parseUnsignedDec l

/-- Model of Python `float(s)` on decimal literals: surrounding whitespace
is ignored, an optional sign precedes the digits; on any other shape the
call raises `ValueError`, modelled as `none`. -/
def pyFloat? (s : String) : Option ℚ :=
  parseSignedDec (trimWs s.toList)

def pyFloatChars (l : List Char) : Option ℚ :=
  parseSignedDec (trimWs l)

/-- Model of Python `int(s)`: surrounding whitespace ignored, optional
sign, then decimal digits only. -/
def pyInt? (s : String) : Option Int :=
  match trimWs s.toList with
  | '+' :: r => if r.isEmpty || !(r.all Char.isDigit) then none else some (digitsVal r)
  | '-' :: r => if r.isEmpty || !(r.all Char.isDigit) then none else some (-(digitsVal r : Int))
  | l => if l.isEmpty || !(l.all Char.isDigit) then none else some (digitsVal l)

/-! ### Column Normalizer (`CSVParser.__init__` registry and
`normalize_columns`) -/

/-- The `column_mappings` registry, in its declared iteration order. -/
def column_mappings : List (String × List String) :=
  [("position", ["POS", "POSITION", "P", "RANK"]),
   ("number", ["NUMBER", "CAR", "CAR_NUMBER", "#"]),
   ("driver", ["DRIVER", "DRIVER_NAME", "NAME"]),
   ("driver_first", ["DRIVER_FIRSTNAME", "FIRST_NAME", "FIRSTNAME"]),
   ("driver_last", ["DRIVER_SECONDNAME", "LAST_NAME", "SURNAME", "LASTNAME"]),
   ("team", ["TEAM", "TEAM_NAME", "CONSTRUCTOR"]),
   ("laps", ["LAPS", "TOTAL_LAPS", "LAPS_COMPLETED"]),
   ("time", ["ELAPSED", "TIME", "TOTAL_TIME"]),
   ("gap", ["GAP_FIRST", "GAP", "INTERVAL"]),
   ("gap_prev", ["GAP_PREVIOUS", "GAP_PREV", "BEHIND"]),
   ("best_lap", ["BEST_LAP_TIME", "BEST_LAP", "FASTEST_LAP"]),
   ("best_lap_num", ["BEST_LAP_NUM", "BEST_LAP_NUMBER", "FL_LAP"]),
   ("best_lap_speed", ["BEST_LAP_KPH", "BEST_LAP_MPH", "FL_SPEED"]),
   ("status", ["STATUS", "CLASS_TYPE", "CLASSIFICATION"]),
   ("class", ["CLASS_TYPE", "CLASS", "CATEGORY"]),
   ("vehicle", ["VEHICLE", "CAR_MODEL", "MODEL"])]

/-- First registry entry one of whose variants upper-cases to `u`,
yielding the upper-cased canonical name. -/
def canonFromUpper (u : String) : Option String :=
  (column_mappings.find? (fun p => p.2.any (fun v => upcase v == u))).map
    (fun p => upcase p.1)

/-- Canonical name assigned to a (already stripped) column name by the
loop body of `normalize_columns`: the comparison is on upper-cased
spellings, first registry match wins. -/
def canonicalFor (c : String) : Option String :=
  canonFromUpper (upcase c)

/-- Model of `normalize_columns`.  The Python body first executes
`df.columns = df.columns.str.strip()`, which mutates the caller's frame
in place, and then builds a renamed copy with `df.rename`.  The result
pair is (state of the input frame after the call, returned frame). -/
def normalize_columns (t : Table) : Table × Table :=
  let stripped : Table := ⟨t.cols.map strip, t.rows⟩
  let renamed : Table := ⟨stripped.cols.map (fun c => (canonicalFor c).getD c), stripped.rows⟩
  (stripped, renamed)

/-! ### Record Parsers -/

/-- Model of `pd.to_numeric(col, errors='coerce')` on one cell: a cell
whose string does not parse as a number becomes missing; numeric values
are kept (represented by their original string). -/
def coerceCell (c : Cell) : Cell :=
  c.bind fun s => if (pyFloat? s).isSome then some s else none

def coerceColumn (name : String) (t : Table) : Table :=
  match colIdx t.cols name with
  | none => t
  | some i => ⟨t.cols, t.rows.map (fun r => r.set i (coerceCell ((r.get? i).getD none)))⟩

def coerceColumns (names : List String) (t : Table) : Table :=
  names.foldl (fun acc n => coerceColumn n acc) t

/-- The read step: `pd.read_csv` either fails (any exception: missing
file, unreadable structure, empty file) or produces a raw table. -/
abbrev ReadResult := Except String Table

/-- Model of `parse_race_results`: any read exception is caught and an
empty frame returned; otherwise normalize and coerce POSITION, NUMBER,
LAPS. -/
def parse_race_results (r : ReadResult) : Table :=
  match r with
  | .error _ => Table.empty
  | .ok df => coerceColumns ["POSITION", "NUMBER", "LAPS"] (normalize_columns df).2

/-- Model of the timestamp derivation in `parse_weather_data`: the
`timestamp` column derived by `pd.to_datetime(..., errors='coerce')` is
represented by the coerced epoch-seconds cell itself (the rendering of a
datetime is never inspected by the analyzer). -/
def addTimestamp (t : Table) : Table :=
  match colIdx t.cols "TIME_UTC_SECONDS" with
  | none => t
  | some i =>
      let t' := coerceColumn "TIME_UTC_SECONDS" t
      ⟨t'.cols ++ ["timestamp"], t'.rows.map (fun r => r ++ [coerceCell ((r.get? i).getD none)])⟩

def parse_weather_data (r : ReadResult) : Table :=
  match r with
  | .error _ => Table.empty
  | .ok df =>
      coerceColumns ["AIR_TEMP", "TRACK_TEMP", "HUMIDITY", "PRESSURE",
                     "WIND_SPEED", "WIND_DIRECTION", "RAIN"]
        (addTimestamp (normalize_columns df).2)

def parse_lap_times (r : ReadResult) : Table :=
  match r with
  | .error _ => Table.empty
  | .ok df => coerceColumns ["NUMBER"] (normalize_columns df).2

def parse_best_laps (r : ReadResult) : Table :=
  match r with
  | .error _ => Table.empty
  | .ok df => coerceColumns ["NUMBER", "TOTAL_DRIVER_LAPS"] (normalize_columns df).2

/-! ### Race Analyzer: `identify_key_battles` -/

structure Battle where
  position : String
  driver : String
  car_number : String
  gap : ℚ
  classification : String
deriving DecidableEq, Repr

/-- The `gap_str.startswith('+')` test together with `gap_str[1:]`: the
character list after a leading `+`, or `none` when the prefix test
fails. -/
def plusTail? (s : String) : Option (List Char) :=
  match s.data with
  | '+' :: r => some r
  | _ => none

/-- Model of the GAP_PREV parse in `identify_key_battles`: only a string
with sign prefix `+` is considered, the remainder is handed to
`float`. -/
def parseGap (s : String) : Option ℚ :=
  (plusTail? s).bind pyFloatChars

/-- Loop body of `identify_key_battles` for the row at position `idx`:
parse failure or a gap above the threshold contributes nothing. -/
def battleOf (cols : List String) (θ : ℚ) (idx : Nat) (r : List Cell) : Option Battle :=
  let gapStr := pyGet cols r "GAP_PREV" ""
  match plusTail? gapStr with
  | none => none
  | some tl =>
    match pyFloatChars tl with
    | none => none
    | some gap =>
      if gap ≤ θ then
        let d0 := pyGet cols r "DRIVER" ""
        let d := if d0 = "" then
            strip (pyGet cols r "DRIVER_FIRST" "" ++ " " ++ pyGet cols r "DRIVER_LAST" "")
          else d0
        some { position := pyGet cols r "POSITION" (toString (idx + 1)),
               driver := if d = "" then "Unknown" else d,
               car_number := pyGet cols r "NUMBER" "N/A",
               gap := gap,
               classification := "Close Battle" }
      else none

/-- Model of `identify_key_battles`: the first row (index 0, the leader)
is skipped; output preserves iteration order. -/
def identify_key_battles (t : Table) (θ : ℚ) : List Battle :=
  if t.rows.isEmpty || !(t.cols.contains "GAP_PREV") then []
  else
    match t.rows with
    | [] => []
    | _ :: rest => (rest.enumFrom 1).filterMap (fun p => battleOf t.cols θ p.1 p.2)

/-! ### Race Analyzer: `analyze_fastest_laps` -/

def flSelectedCols : List String :=
  ["POSITION", "NUMBER", "DRIVER_FIRSTNAME", "DRIVER_SECONDNAME",
   "FL_TIME", "FL_LAPNUM", "FL_KPH", "TEAM"]

/-- Column projection `df[[...]]` row by row (a present column with a
short row reads as missing; pandas frames are never ragged). -/
def projRow (cols : List String) (r : List Cell) : List Cell :=
  flSelectedCols.map (fun c => (getCell cols r c).getD none)

/-- Lexicographic strict comparison of character lists, the model of
Python string `<` (code-point order). -/
def charListLT : List Char → List Char → Bool
  | _, [] => false
  | [], _ :: _ => true
  | x :: xs, y :: ys =>
      if x < y then true else if y < x then false else charListLT xs ys

/-- Model of Python string `<=`. -/
def strLEb (a b : String) : Bool := !(charListLT b.data a.data)

/-- Cell comparison used by `sort_values`: values compare as strings and
missing values are placed last. -/
def flCellLE (a b : Cell) : Bool :=
  match a, b with
  | some x, some y => strLEb x y
  | some _, none => true
  | none, some _ => false
  | none, none => true

/-- Sort key of `sort_values('FL_TIME')` on a projected row: the FL_TIME
cell, at index 4 of the selection. -/
def flKeyCell (r : List Cell) : Cell := (r[4]?).getD none

def flRel (a b : List Cell) : Prop := flCellLE (flKeyCell a) (flKeyCell b) = true

instance : DecidableRel flRel := fun a b =>
  inferInstanceAs (Decidable (flCellLE (flKeyCell a) (flKeyCell b) = true))

/-- Append the `FL_RANK` column, numbering rows `n, n+1, ...`. -/
def addRank (n : Nat) : List (List Cell) → List (List Cell)
  | [] => []
  | r :: rs => (r ++ [some (toString n)]) :: addRank (n + 1) rs

/-- Model of `analyze_fastest_laps`: empty frame or missing FL_TIME gives
an empty frame; the selection `df[[...]]` raises `KeyError` when any of
the eight selected columns is absent; otherwise the projection is sorted
by FL_TIME and ranked 1..n. -/
def analyze_fastest_laps (t : Table) : Except String Table :=
  if t.rows.isEmpty || !(t.cols.contains "FL_TIME") then .ok Table.empty
  else if flSelectedCols.all (fun c => t.cols.contains c) then
    .ok ⟨flSelectedCols ++ ["FL_RANK"],
         addRank 1 (List.insertionSort flRel (t.rows.map (projRow t.cols)))⟩
  else .error "KeyError"

/-! ### Race Analyzer: `calculate_consistency` -/

/-- Character-level split on every occurrence of `c`, the model of
Python `str.split`. -/
def splitOnChar (c : Char) : List Char → List (List Char)
  | [] => [[]]
  | x :: xs =>
      if x = c then [] :: splitOnChar c xs
      else
        match splitOnChar c xs with
        | [] => [[x]]
        | h :: t => (x :: h) :: t

/-- Model of the lap-time conversion in `calculate_consistency`: when a
colon is present the string is split on every colon and the first two
components are converted with `float` (`parts[0]` minutes, `parts[1]`
seconds, any later components ignored); a failing `float` means the value
is skipped. -/
def parseLapTime (s : String) : Option ℚ :=
  if s.toList.contains ':' then
    match splitOnChar ':' s.toList with
    | p0 :: p1 :: _ =>
        (pyFloatChars p0).bind fun m => (pyFloatChars p1).map fun x => m * 60 + x
    | _ => none
  else none

/-- The lap times collected for one row: fields BESTLAP_1 .. BESTLAP_10,
keeping only present, non-missing, parseable cells, in index order. -/
def parsedLaps (cols : List String) (r : List Cell) : List ℚ :=
  (List.range' 1 10).filterMap fun i =>
    ((getCell cols r ("BESTLAP_" ++ toString i)).bind id).bind parseLapTime

structure ConsistencyRecord where
  driver : String
  car_number : Cell
  team : String
  lapTimes : List ℚ
deriving DecidableEq, Repr

/-- Mean of the collected lap times (`np.mean`). -/
def meanQ (l : List ℚ) : ℚ := l.sum / l.length

/-- Population variance of the collected lap times, the square of
`np.std`. -/
def popVar (l : List ℚ) : ℚ :=
  (l.map (fun x => (x - meanQ l) ^ 2)).sum / l.length

/-- Minimum of the collected lap times (`min(lap_times)`, the stored
`best_lap`). -/
def bestLap : List ℚ → ℚ
  | [] => 0
  | x :: xs => xs.foldl min x

def varLE (a b : ConsistencyRecord) : Prop :=
  popVar a.lapTimes ≤ popVar b.lapTimes

instance : DecidableRel varLE := fun a b =>
  inferInstanceAs (Decidable (popVar a.lapTimes ≤ popVar b.lapTimes))

instance : IsTotal ConsistencyRecord varLE := ⟨fun _ _ => le_total _ _⟩

instance : IsTrans ConsistencyRecord varLE := ⟨fun _ _ _ h h' => le_trans h h'⟩

/-- Row body of `calculate_consistency`: a row with at least three
parseable lap times produces a record; building it reads `row['NUMBER']`
with bracket access, so a missing NUMBER label raises `KeyError`. -/
def consistencyEntry (cols : List String) (r : List Cell) :
    Except String (Option ConsistencyRecord) :=
  let laps := parsedLaps cols r
  if 3 ≤ laps.length then
    match getCell cols r "NUMBER" with
    | none => .error "KeyError: NUMBER"
    | some num =>
        .ok (some { driver := pyGet cols r "FIRSTNAME" "" ++ " " ++ pyGet cols r "SECONDNAME" "",
                    car_number := num,
                    team := pyGet cols r "TEAM" "",
                    lapTimes := laps })
  else .ok none

def consistencyRows (cols : List String) : List (List Cell) →
    Except String (List ConsistencyRecord)
  | [] => .ok []
  | r :: rs =>
      match consistencyEntry cols r with
      | .error e => .error e
      | .ok o =>
          match consistencyRows cols rs with
          | .error e => .error e
          | .ok rest =>
              match o with
              | some entry => .ok (entry :: rest)
              | none => .ok rest

/-- Model of `calculate_consistency`.  The final frame is sorted
descending on `consistency_score`; since the score is a strictly
decreasing function of the lap-time variance, the sort is performed on
the variance ascending. -/
def calculate_consistency (t : Table) : Except String (List ConsistencyRecord) :=
  if t.rows.isEmpty then .ok []
  else (consistencyRows t.cols t.rows).map (List.insertionSort varLE)

/-! ### Race Analyzer: `get_position_changes` -/

structure PositionChange where
  driver : String
  car_number : Cell
  start_position : Int
  finish_position : Int
  positions_gained : Int
deriving DecidableEq, Repr

/-- Loop body of `get_position_changes`: `int(row[grid])`,
`int(row['POSITION'])` and `row['NUMBER']` are evaluated under a handler
for `ValueError` and `KeyError`, so a failing parse or a missing label
skips the row. -/
def changeOf (cols : List String) (gridCol : String) (r : List Cell) :
    Option PositionChange :=
  (getCell cols r gridCol).bind fun gcell =>
  (pyInt? (strOfCell gcell)).bind fun sp =>
  (getCell cols r "POSITION").bind fun pcell =>
  (pyInt? (strOfCell pcell)).bind fun fp =>
  (getCell cols r "NUMBER").map fun num =>
    { driver := pyGet cols r "DRIVER_FIRSTNAME" "" ++ " " ++ pyGet cols r "DRIVER_SECONDNAME" "",
      car_number := num,
      start_position := sp,
      finish_position := fp,
      positions_gained := sp - fp }

def gainGE (a b : PositionChange) : Prop :=
  b.positions_gained ≤ a.positions_gained

instance : DecidableRel gainGE := fun a b =>
  inferInstanceAs (Decidable (b.positions_gained ≤ a.positions_gained))

instance : IsTotal PositionChange gainGE := ⟨fun _ _ => le_total _ _⟩

instance : IsTrans PositionChange gainGE := ⟨fun _ _ _ h h' => le_trans h' h⟩

/-- Model of `get_position_changes`: rows surviving the parses are sorted
descending on positions gained. -/
def get_position_changes (t : Table) (gridCol : String) : List PositionChange :=
  if t.rows.isEmpty || !(t.cols.contains gridCol) then []
  else List.insertionSort gainGE (t.rows.filterMap (changeOf t.cols gridCol))

/-! ### Race Analyzer: `analyze_race_progression` and
`generate_race_summary` -/

structure Progression where
  total_finishers : Nat
  total_classified : Nat
  dnf_count : Nat
  average_laps : Option ℚ
  position_changes : List PositionChange
deriving DecidableEq, Repr

def Progression.default : Progression := ⟨0, 0, 0, some 0, []⟩

/-- Mean of the parseable values of a column, `none` when no value
parses (pandas `mean` of an all-missing column is NaN). -/
def colMean (t : Table) (c : String) : Option ℚ :=
  let vals := t.rows.filterMap fun r => ((getCell t.cols r c).bind id).bind pyFloat?
  if vals.isEmpty then none else some (meanQ vals)

/-- Model of `analyze_race_progression`: an empty frame returns the
default dictionary; otherwise `results_df['STATUS']` raises `KeyError`
when the column is absent. -/
def analyze_race_progression (t : Table) : Except String Progression :=
  if t.rows.isEmpty then .ok Progression.default
  else if !(t.cols.contains "STATUS") then .error "KeyError: STATUS"
  else
    let total := t.rows.length
    let classified := (t.rows.filter
      (fun r => getCell t.cols r "STATUS" == some (some "Classified"))).length
    .ok { total_finishers := total,
          total_classified := classified,
          dnf_count := total - classified,
          average_laps := if t.cols.contains "LAPS" then colMean t "LAPS" else some 0,
          position_changes := [] }

structure WinnerInfo where
  driver : String
  car_number : String
  team : String
  laps : String
deriving DecidableEq, Repr

structure FastestLapInfo where
  driver : String
  time : String
  lap : String
  speed : String
deriving DecidableEq, Repr

structure RaceSummary where
  winner : Option WinnerInfo
  pole_position : Option String
  fastest_lap : Option FastestLapInfo
  total_finishers : Nat
  close_battles : List Battle
  top_performers : List String
deriving DecidableEq, Repr

def RaceSummary.default : RaceSummary := ⟨none, none, none, 0, [], []⟩

def winnerName (cols : List String) (r : List Cell) : String :=
  let d0 := pyGet cols r "DRIVER" ""
  let d := if d0 = "" then
      strip (pyGet cols r "DRIVER_FIRST" "" ++ " " ++ pyGet cols r "DRIVER_LAST" "")
    else d0
  if d = "" then "Unknown" else d

def mkWinnerInfo (cols : List String) (r : List Cell) : WinnerInfo :=
  { driver := winnerName cols r,
    car_number := pyGet cols r "NUMBER" "N/A",
    team := pyGet cols r "TEAM" "N/A",
    laps := pyGet cols r "LAPS" "0" }

def mkFastestLapInfo (cols : List String) (r : List Cell) : FastestLapInfo :=
  { driver := winnerName cols r,
    time := pyGet cols r "FL_TIME" (pyGet cols r "BEST_LAP" "N/A"),
    lap := pyGet cols r "FL_LAPNUM" (pyGet cols r "BEST_LAP_NUM" ""),
    speed := pyGet cols r "FL_KPH" (pyGet cols r "BEST_LAP_SPEED" "") }

/-- Model of `generate_race_summary`: no or empty results give the
default summary; otherwise the winner is the first row as stored, the
fastest lap the first row of `analyze_fastest_laps` (whose `KeyError`
propagates), and the battles come from `identify_key_battles` at the
default threshold 5. -/
def generate_race_summary (race_data : List (String × Table)) :
    Except String RaceSummary :=
  match race_data.lookup "results" with
  | none => .ok RaceSummary.default
  | some t =>
      if t.rows.isEmpty then .ok RaceSummary.default
      else do
        let winner :=
          match t.rows with
          | [] => none
          | r :: _ => some (mkWinnerInfo t.cols r)
        let fl ← analyze_fastest_laps t
        let fastest :=
          match fl.rows with
          | [] => none
          | r :: _ => some (mkFastestLapInfo fl.cols r)
        .ok { winner := winner,
              pole_position := none,
              fastest_lap := fastest,
              total_finishers := t.rows.length,
              close_battles := identify_key_battles t 5,
              top_performers := [] }

/-! ### Specification-side definitions used for refinement comparison -/

/-- Split a character list at the first occurrence of `c`, or `none`
when `c` does not occur. -/
def splitFirstOn (c : Char) : List Char → Option (List Char × List Char)
  | [] => none
  | x :: xs =>
      if x = c then some ([], xs)
      else (splitFirstOn c xs).map (fun p => (x :: p.1, p.2))

/-- The lap-time parse as worded by the specification: split on the
first colon, the left part is whole minutes and the right part is
fractional seconds, both through `float`. -/
def lapTimeFirstColon (s : String) : Option ℚ :=
  match splitFirstOn ':' s.toList with
  | none => none
  | some (l, r) =>
      (pyFloatChars l).bind fun m => (pyFloatChars r).map fun x => m * 60 + x

/-- Row count delivered by the read step: zero on a read error. -/
def readRowCount (r : ReadResult) : Nat :=
  match r with
  | .error _ => 0
  | .ok t => t.rows.length

/-- The value the loop body of `calculate_consistency` contributes for a
row on the non-raising paths. -/
def pureConsistencyEntry (cols : List String) (r : List Cell) : Option ConsistencyRecord :=
  match consistencyEntry cols r with
  | .ok o => o
  | .error _ => none

/-! ## Theorems -/

theorem getCell_of_not_contains {cols : List String} {c : String}
    (r : List Cell) (h : cols.contains c = false) : getCell cols r c = none := by
  have hmem : c ∉ cols := by simpa using h
  have : colIdx cols c = none := by
    unfold colIdx
    rw [List.findIdx?_eq_none_iff]
    intro x hx
    simp only [beq_eq_false_iff_ne, ne_eq]
    exact fun hxc => hmem (hxc ▸ hx)
  simp [getCell, this]

theorem battleOf_gap (cols : List String) (θ : ℚ) (i : Nat) (r : List Cell) :
    (battleOf cols θ i r).map Battle.gap
      = (parseGap (pyGet cols r "GAP_PREV" "")).bind
          (fun g => if g ≤ θ then some g else none) := by
  simp only [battleOf, parseGap]
  cases hp : plusTail? (pyGet cols r "GAP_PREV" "") with
  | none => simp
  | some tl =>
      cases hf : pyFloatChars tl with
      | none => simp [hf]
      | some g =>
          simp only [hf, Option.some_bind]
          split <;> simp

theorem filterMap_enumFrom_snd {α β : Type} (f : α → Option β) :
    ∀ (n : Nat) (l : List α), (l.enumFrom n).filterMap (fun p => f p.2) = l.filterMap f := by
  intro n l
  induction l generalizing n with
  | nil => rfl
  | cons a as ih =>
      simp only [List.enumFrom, List.filterMap_cons]
      cases f a <;> simp [ih]

/-- C1 counterexample: the string "+-1.000" starts with the required sign
prefix and its remainder parses with `float` to a negative gap, which the
code records as a battle because it only checks the upper bound. -/
theorem c1_counterexample :
    (identify_key_battles ⟨["GAP_PREV"], [[some ""], [some "+-1"]]⟩ 5).map Battle.gap = [-1]
    ∧ ((-1 : ℚ) < 0) :=
  ⟨by decide, by decide⟩

theorem identify_key_battles_gaps (t : Table) (θ : ℚ) :
    (identify_key_battles t θ).map Battle.gap
      = (t.rows.drop 1).filterMap (fun r =>
          (parseGap (pyGet t.cols r "GAP_PREV" "")).bind
            (fun g => if g ≤ θ then some g else none)) := by
  unfold identify_key_battles
  cases hc : t.cols.contains "GAP_PREV" with
  | false =>
      have hnil : List.filterMap (fun r =>
          (parseGap (pyGet t.cols r "GAP_PREV" "")).bind
            (fun g => if g ≤ θ then some g else none)) (t.rows.drop 1) = [] := by
        rw [List.filterMap_eq_nil_iff]
        intro r _
        have hg : getCell t.cols r "GAP_PREV" = none := getCell_of_not_contains r hc
        simp [pyGet, hg, parseGap, plusTail?]
      rw [hnil]
      simp [hc]
  | true =>
      cases hr : t.rows with
      | nil => simp
      | cons r0 rest =>
          simp only [hc, List.isEmpty_cons, Bool.not_true, Bool.or_false, Bool.false_or,
            Bool.false_eq_true, if_false, List.drop_succ_cons, List.drop_zero]
          rw [List.map_filterMap]
          rw [List.filterMap_congr (fun p _ => battleOf_gap t.cols θ p.1 p.2)]
          exact filterMap_enumFrom_snd (fun r =>
            (parseGap (pyGet t.cols r "GAP_PREV" "")).bind
              (fun g => if g ≤ θ then some g else none)) 1 rest

/-- C1 (amended): for every row after the first, a battle is recorded
exactly when GAP_PREV starts with "+" and the remainder parses with
`float` to a gap with `gap <= gapThreshold` (the code imposes no lower
bound; for the "+" followed by an unsigned numeral shapes the gap is
automatically nonnegative), and the battle list carries the parsed gaps
in table row order.  With gapThreshold 5, the rows "+3.500", "+7.000",
"-1.000", "DNF" after a leader yield exactly one battle, of gap 3.5. -/
theorem c1_battles_threshold_and_order :
    (∀ (t : Table) (θ : ℚ),
        (identify_key_battles t θ).map Battle.gap
          = (t.rows.drop 1).filterMap (fun r =>
              (parseGap (pyGet t.cols r "GAP_PREV" "")).bind
                (fun g => if g ≤ θ then some g else none)))
    ∧ (identify_key_battles
          ⟨["GAP_PREV"],
           [[some ""], [some "+3.500"], [some "+7.000"], [some "-1.000"], [some "DNF"]]⟩
          5).map Battle.gap = [7 / 2] := by
  constructor
  · exact identify_key_battles_gaps
  · rw [identify_key_battles_gaps]
    have hp : ∀ s : String, pyGet ["GAP_PREV"] [some s] "GAP_PREV" "" = s := fun _ => rfl
    have h1 : parseGap "+3.500" = some ((3 : ℚ) + 500 / 10 ^ 3) := rfl
    have h2 : parseGap "+7.000" = some ((7 : ℚ) + 0 / 10 ^ 3) := rfl
    have h3 : parseGap "-1.000" = none := rfl
    have h4 : parseGap "DNF" = none := rfl
    have g1 : ((3 : ℚ) + 500 / 10 ^ 3) = 7 / 2 := by norm_num
    have g2 : ((7 : ℚ) + 0 / 10 ^ 3) = 7 := by norm_num
    have i1 : (if (7 : ℚ) / 2 ≤ 5 then some ((7 : ℚ) / 2) else none) = some (7 / 2) :=
      if_pos (by norm_num)
    have i2 : (if (7 : ℚ) ≤ 5 then some (7 : ℚ) else none) = none := if_neg (by norm_num)
    simp only [List.drop_succ_cons, List.drop_zero, List.filterMap_cons, List.filterMap_nil,
      hp, h1, h2, h3, h4, g1, g2, Option.some_bind, Option.none_bind, i1, i2]

/-- C2 counterexample: the column name " FOO " matches no alias, yet the
returned table carries it stripped to "FOO", not unchanged. -/
theorem c2_counterexample :
    canonicalFor " FOO " = none
    ∧ (normalize_columns ⟨[" FOO "], [[some "x"]]⟩).2.cols = ["FOO"]
    ∧ [" FOO "] ≠ ["FOO"] := by
  refine ⟨by decide, by decide, by decide⟩

/-- C2 (amended): `normalize_columns` first strips surrounding whitespace
from every column name; a stripped name whose upper-cased spelling equals
that of a known alias is renamed to the (first matching) canonical name,
and a stripped name matching no alias is kept as the stripped spelling.
Matching depends only on the upper-cased spelling, so all case variants
of an alias are treated alike.  Row contents are untouched. -/
theorem c2_normalize_columns_renaming :
    (∀ t : Table,
        (normalize_columns t).2.cols = t.cols.map (fun c => (canonicalFor (strip c)).getD (strip c))
        ∧ (normalize_columns t).2.rows = t.rows)
    ∧ (∀ s₁ s₂ : String, upcase s₁ = upcase s₂ → canonicalFor s₁ = canonicalFor s₂) := by
  constructor
  · intro t
    constructor
    · simp [normalize_columns, List.map_map, Function.comp]
    · rfl
  · intro s₁ s₂ h
    unfold canonicalFor
    rw [h]

theorem c2_witness :
    ((normalize_columns ⟨["Pos"], [[some "1"]]⟩).2.cols
        = ["Pos"].map (fun c => (canonicalFor (strip c)).getD (strip c)))
    ∧ canonicalFor "pos" = canonicalFor "PoS" :=
  ⟨(c2_normalize_columns_renaming.1 ⟨["Pos"], [[some "1"]]⟩).1,
   c2_normalize_columns_renaming.2 "pos" "PoS" (by decide)⟩

/-- C8: CLASS_TYPE is an alias of both the status and the class fields;
the registry is iterated in declared order, so any spelling whose
upper case is CLASS_TYPE is claimed by the earlier field, status. -/
theorem c8_first_match_wins :
    column_mappings.lookup "status" = some ["STATUS", "CLASS_TYPE", "CLASSIFICATION"]
    ∧ column_mappings.lookup "class" = some ["CLASS_TYPE", "CLASS", "CATEGORY"]
    ∧ "CLASS_TYPE" ∈ ["STATUS", "CLASS_TYPE", "CLASSIFICATION"]
    ∧ "CLASS_TYPE" ∈ ["CLASS_TYPE", "CLASS", "CATEGORY"]
    ∧ (∀ s : String, upcase s = "CLASS_TYPE" → canonicalFor s = some "STATUS")
    ∧ (normalize_columns ⟨["class_type"], [[some "GT3"]]⟩).2 = ⟨["STATUS"], [[some "GT3"]]⟩ := by
  refine ⟨by decide, by decide, by decide, by decide, ?_, by decide⟩
  intro s h
  unfold canonicalFor
  rw [h]
  decide

theorem c8_witness : canonicalFor "Class_Type" = some "STATUS" :=
  c8_first_match_wins.2.2.2.2.1 "Class_Type" (by decide)

/-- C9 counterexample: a column name with surrounding whitespace is
stripped on the input table itself, so the caller's table is mutated. -/
theorem c9_counterexample :
    (normalize_columns ⟨[" POS "], [[some "1"]]⟩).1 ≠ ⟨[" POS "], [[some "1"]]⟩ := by
  decide

/-- C9 (amended): the only in-place effect of `normalize_columns` on its
input is stripping surrounding whitespace from the column names (the
`df.columns = df.columns.str.strip()` assignment); row contents are
untouched, and a table whose column names carry no surrounding
whitespace is not mutated at all.  The renaming itself happens only on
the returned copy. -/
theorem c9_mutation_is_strip_only :
    ∀ t : Table,
      (normalize_columns t).1.rows = t.rows
      ∧ (normalize_columns t).1.cols = t.cols.map strip
      ∧ ((∀ c ∈ t.cols, strip c = c) → (normalize_columns t).1 = t) := by
  intro t
  refine ⟨rfl, rfl, ?_⟩
  intro h
  have : t.cols.map strip = t.cols := by
    conv_rhs => rw [← List.map_id t.cols]
    exact List.map_congr_left h
  simp [normalize_columns, this]

theorem changeOf_gained {cols : List String} {g : String} {r : List Cell}
    {e : PositionChange} (h : changeOf cols g r = some e) :
    e.positions_gained = e.start_position - e.finish_position := by
  unfold changeOf at h
  simp only [Option.bind_eq_some, Option.map_eq_some'] at h
  obtain ⟨gc, -, sp, -, pc, -, fp, -, num, -, heq⟩ := h
  subst heq
  rfl

theorem changeOf_none_of_not_contains {cols : List String} {g : String}
    (r : List Cell) (hc : cols.contains g = false) : changeOf cols g r = none := by
  unfold changeOf
  rw [getCell_of_not_contains r hc]
  rfl

/-- C7 counterexample: a row whose grid and POSITION fields both parse as
integers is still dropped when the table has no NUMBER column, because
the loop body reads `row['NUMBER']` under the same exception handler. -/
theorem c7_counterexample :
    get_position_changes ⟨["GRID", "POSITION"], [[some "5", some "2"]]⟩ "GRID" = []
    ∧ pyInt? "5" = some 5
    ∧ pyInt? "2" = some 2 :=
  ⟨rfl, rfl, rfl⟩

/-- C7 (amended): a row contributes a position change exactly when
`int` succeeds on its grid and POSITION fields and its NUMBER label is
present (a missing NUMBER raises `KeyError`, which the handler turns into
a silent skip); each contributed entry has positions_gained equal to
start minus finish, and the returned list is sorted descending by
positions gained. -/
theorem c7_position_changes :
    ∀ (t : Table) (g : String),
      (get_position_changes t g).Perm (t.rows.filterMap (changeOf t.cols g))
      ∧ (get_position_changes t g).Sorted gainGE
      ∧ (∀ e ∈ get_position_changes t g,
          e.positions_gained = e.start_position - e.finish_position) := by
  intro t g
  unfold get_position_changes
  cases hcond : (t.rows.isEmpty || !(t.cols.contains g)) with
  | true =>
      simp only [if_true]
      have hnil : t.rows.filterMap (changeOf t.cols g) = [] := by
        rcases Bool.or_eq_true_iff.mp hcond with he | hnc
        · rw [List.isEmpty_iff.mp he]
          rfl
        · rw [List.filterMap_eq_nil_iff]
          intro r _
          exact changeOf_none_of_not_contains r (by simpa using hnc)
      rw [hnil]
      exact ⟨List.Perm.refl [], List.sorted_nil, fun e he => absurd he (List.not_mem_nil e)⟩
  | false =>
      simp only [Bool.false_eq_true, if_false]
      refine ⟨List.perm_insertionSort gainGE _, List.sorted_insertionSort gainGE _, ?_⟩
      intro e he
      rw [List.mem_insertionSort] at he
      obtain ⟨r, -, hr⟩ := List.mem_filterMap.mp he
      exact changeOf_gained hr

theorem c7_witness :
    get_position_changes
        ⟨["GRID", "POSITION", "NUMBER"], [[some "5", some "2", some "7"]]⟩ "GRID"
      = [⟨" ", some "7", 5, 2, 3⟩]
    ∧ (⟨" ", some "7", 5, 2, 3⟩ : PositionChange).positions_gained
        = (⟨" ", some "7", 5, 2, 3⟩ : PositionChange).start_position
          - (⟨" ", some "7", 5, 2, 3⟩ : PositionChange).finish_position := by
  have hval : get_position_changes
      ⟨["GRID", "POSITION", "NUMBER"], [[some "5", some "2", some "7"]]⟩ "GRID"
      = [⟨" ", some "7", 5, 2, 3⟩] := rfl
  refine ⟨hval, ?_⟩
  exact (c7_position_changes ⟨["GRID", "POSITION", "NUMBER"],
    [[some "5", some "2", some "7"]]⟩ "GRID").2.2 _ (by rw [hval]; exact List.mem_singleton.mpr rfl)

theorem coerceColumn_rows_length (n : String) (t : Table) :
    (coerceColumn n t).rows.length = t.rows.length := by
  unfold coerceColumn
  cases colIdx t.cols n <;> simp

theorem coerceColumns_rows_length (names : List String) (t : Table) :
    (coerceColumns names t).rows.length = t.rows.length := by
  induction names generalizing t with
  | nil => rfl
  | cons n ns ih =>
      simp only [coerceColumns, List.foldl_cons]
      rw [show List.foldl (fun acc n => coerceColumn n acc) (coerceColumn n t) ns
            = coerceColumns ns (coerceColumn n t) from rfl]
      rw [ih, coerceColumn_rows_length]

theorem addTimestamp_rows_length (t : Table) :
    (addTimestamp t).rows.length = t.rows.length := by
  unfold addTimestamp
  cases colIdx t.cols "TIME_UTC_SECONDS" <;> simp [coerceColumn_rows_length]

theorem splitOnChar_eq (c : Char) (l : List Char) :
    splitOnChar c l
      = match splitFirstOn c l with
        | none => [l]
        | some (a, b) => a :: splitOnChar c b := by
  induction l with
  | nil => rfl
  | cons x xs ih =>
      simp only [splitOnChar, splitFirstOn]
      by_cases hx : x = c
      · simp [hx]
      · simp only [hx, if_false]
        cases hs : splitFirstOn c xs with
        | none =>
            rw [hs] at ih
            simp only at ih
            simp [ih]
        | some p =>
            rw [hs] at ih
            obtain ⟨a, b⟩ := p
            simp only at ih
            simp [ih]

theorem splitFirstOn_eq_none_iff (c : Char) (l : List Char) :
    splitFirstOn c l = none ↔ c ∉ l := by
  induction l with
  | nil => simp [splitFirstOn]
  | cons x xs ih =>
      simp only [splitFirstOn]
      by_cases hx : x = c
      · subst hx
        simp
      · simp [hx, Option.map_eq_none', ih, Ne.symm hx]

theorem splitFirstOn_decomp (c : Char) :
    ∀ (l a b : List Char), splitFirstOn c l = some (a, b) → l = a ++ c :: b ∧ c ∉ a := by
  intro l
  induction l with
  | nil => intro a b h; simp [splitFirstOn] at h
  | cons x xs ih =>
      intro a b h
      by_cases hx : x = c
      · subst hx
        simp only [splitFirstOn, if_pos rfl, Option.some_inj, Prod.mk.injEq] at h
        obtain ⟨rfl, rfl⟩ := h
        simp
      · simp only [splitFirstOn, hx, if_false, Option.map_eq_some', Prod.mk.injEq] at h
        obtain ⟨⟨a', b'⟩, hsp, ha, hb⟩ := h
        obtain ⟨hl, hna⟩ := ih a' b' hsp
        subst ha
        subst hb
        constructor
        · rw [hl]
          rfl
        · intro hmem
          rcases List.mem_cons.mp hmem with h1 | h2
          · exact hx h1.symm
          · exact hna h2

/-- C3 counterexample: `time_str.split(':')` splits on every colon, so
"1:22:30" parses to 82.0 seconds from its first two components, while the
first-colon split the claim describes would fail on `float("22:30")` and
skip the value. -/
theorem c3_counterexample :
    parseLapTime "1:22:30" = some 82
    ∧ lapTimeFirstColon "1:22:30" = none := by
  constructor
  · have h : parseLapTime "1:22:30" = some ((1 : ℚ) * 60 + 22) := rfl
    rw [h]
    norm_num
  · rfl

/-- C3 (amended): the lap-time conversion splits on every colon and uses
`float` of the first two components as minutes and seconds
(`minutes*60 + seconds`), skipping the value when either `float` fails;
on strings with at most one colon this coincides with the first-colon
split the specification describes, while on strings with more than one
colon the components after the second are ignored rather than making the
parse fail. -/
theorem c3_laptime_split_semantics :
    (∀ s : String, s.toList.count ':' ≤ 1 → parseLapTime s = lapTimeFirstColon s)
    ∧ (∀ (s : String) (p0 p1 : List Char) (rest : List (List Char)),
        splitOnChar ':' s.toList = p0 :: p1 :: rest →
        parseLapTime s
          = (pyFloatChars p0).bind fun m => (pyFloatChars p1).map fun x => m * 60 + x) := by
  constructor
  · intro s h
    by_cases hc : ':' ∈ s.toList
    · obtain ⟨⟨a, b⟩, hs⟩ : ∃ p, splitFirstOn ':' s.toList = some p := by
        cases hsf : splitFirstOn ':' s.toList with
        | none => exact absurd ((splitFirstOn_eq_none_iff ':' s.toList).mp hsf) (by simpa using hc)
        | some p => exact ⟨p, rfl⟩
      obtain ⟨hdec, hna⟩ := splitFirstOn_decomp ':' s.toList a b hs
      have hcb : ':' ∉ b := by
        have hcount : s.toList.count ':' = b.count ':' + 1 := by
          rw [hdec, List.count_append, List.count_cons_self,
            List.count_eq_zero_of_not_mem hna]
          omega
        have : b.count ':' = 0 := by omega
        exact List.count_eq_zero.mp this
      have hsb : splitOnChar ':' b = [b] := by
        rw [splitOnChar_eq, (splitFirstOn_eq_none_iff ':' b).mpr hcb]
      have hsplit : splitOnChar ':' s.toList = [a, b] := by
        rw [splitOnChar_eq, hs]
        show a :: splitOnChar ':' b = [a, b]
        rw [hsb]
      have hcontains : s.toList.contains ':' = true := List.elem_iff.mpr hc
      unfold parseLapTime lapTimeFirstColon
      rw [hsplit, hs, if_pos hcontains]
    · have hcontains : s.toList.contains ':' = false :=
        Bool.eq_false_iff.mpr (fun h' => hc (List.elem_iff.mp h'))
      unfold parseLapTime lapTimeFirstColon
      rw [(splitFirstOn_eq_none_iff ':' s.toList).mpr hc, hcontains]
      rfl
  · intro s p0 p1 rest hsplit
    have hc : ':' ∈ s.toList := by
      by_contra hnc
      have : splitOnChar ':' s.toList = [s.toList] := by
        rw [splitOnChar_eq, (splitFirstOn_eq_none_iff ':' s.toList).mpr hnc]
      rw [this] at hsplit
      simp at hsplit
    have hcontains : s.toList.contains ':' = true := List.elem_iff.mpr hc
    unfold parseLapTime
    rw [hsplit, if_pos hcontains]

theorem c3_witness :
    parseLapTime "1:22.100" = lapTimeFirstColon "1:22.100" :=
  c3_laptime_split_semantics.1 "1:22.100" (by decide)

theorem popVar_nonneg (l : List ℚ) : 0 ≤ popVar l := by
  unfold popVar
  apply div_nonneg
  · apply List.sum_nonneg
    intro x hx
    obtain ⟨y, -, rfl⟩ := List.mem_map.mp hx
    exact sq_nonneg _
  · exact_mod_cast Nat.zero_le l.length

theorem score_antitone {u v : ℚ} (huv : u ≤ v) :
    1 / (Real.sqrt v + 1 / 1000) ≤ 1 / (Real.sqrt u + 1 / 1000) := by
  have hpos : (0 : ℝ) < Real.sqrt u + 1 / 1000 :=
    add_pos_of_nonneg_of_pos (Real.sqrt_nonneg _) (by norm_num)
  have hle : Real.sqrt u + 1 / 1000 ≤ Real.sqrt v + 1 / 1000 :=
    add_le_add_right (Real.sqrt_le_sqrt (by exact_mod_cast huv)) _
  exact one_div_le_one_div_of_le hpos hle

theorem foldl_min_le_init : ∀ (xs : List ℚ) (a : ℚ), xs.foldl min a ≤ a := by
  intro xs
  induction xs with
  | nil => intro a; exact le_refl a
  | cons x xs ih =>
      intro a
      exact le_trans (ih (min a x)) (min_le_left a x)

theorem foldl_min_le_mem : ∀ (xs : List ℚ) (a x : ℚ), x ∈ xs → xs.foldl min a ≤ x := by
  intro xs
  induction xs with
  | nil => intro a x hx; exact absurd hx (List.not_mem_nil x)
  | cons y ys ih =>
      intro a x hx
      rcases List.mem_cons.mp hx with rfl | hmem
      · exact le_trans (foldl_min_le_init ys (min a x)) (min_le_right a x)
      · exact ih (min a y) x hmem

theorem foldl_min_mem : ∀ (xs : List ℚ) (a : ℚ), xs.foldl min a = a ∨ xs.foldl min a ∈ xs := by
  intro xs
  induction xs with
  | nil => intro a; exact Or.inl rfl
  | cons y ys ih =>
      intro a
      simp only [List.foldl_cons]
      rcases ih (min a y) with heq | hmem
      · rcases min_choice a y with hay | hay
        · exact Or.inl (heq.trans hay)
        · refine Or.inr ?_
          rw [heq, hay]
          exact List.mem_cons_self y ys
      · exact Or.inr (List.mem_cons_of_mem y hmem)

theorem bestLap_mem {l : List ℚ} (h : l ≠ []) : bestLap l ∈ l := by
  cases l with
  | nil => exact absurd rfl h
  | cons x xs =>
      rcases foldl_min_mem xs x with heq | hmem
      · rw [bestLap, heq]
        exact List.mem_cons_self x xs
      · exact List.mem_cons_of_mem x hmem

theorem bestLap_le {l : List ℚ} : ∀ x ∈ l, bestLap l ≤ x := by
  cases l with
  | nil => intro x hx; exact absurd hx (List.not_mem_nil x)
  | cons y ys =>
      intro x hx
      rcases List.mem_cons.mp hx with rfl | hmem
      · exact foldl_min_le_init ys x
      · exact foldl_min_le_mem ys y x hmem

theorem pureConsistencyEntry_laps {cols : List String} {r : List Cell}
    {e : ConsistencyRecord} (h : pureConsistencyEntry cols r = some e) :
    e.lapTimes = parsedLaps cols r ∧ 3 ≤ (parsedLaps cols r).length := by
  unfold pureConsistencyEntry consistencyEntry at h
  by_cases h3 : 3 ≤ (parsedLaps cols r).length
  · rw [if_pos h3] at h
    cases hn : getCell cols r "NUMBER" with
    | none => rw [hn] at h; simp at h
    | some num =>
        rw [hn] at h
        simp only [Option.some_inj] at h
        subst h
        exact ⟨rfl, h3⟩
  · rw [if_neg h3] at h
    simp at h

theorem consistencyRows_ok {cols : List String} :
    ∀ {rows : List (List Cell)} {es : List ConsistencyRecord},
      consistencyRows cols rows = .ok es →
      es = rows.filterMap (pureConsistencyEntry cols) := by
  intro rows
  induction rows with
  | nil =>
      intro es h
      simp only [consistencyRows] at h
      cases h
      rfl
  | cons r rs ih =>
      intro es h
      simp only [consistencyRows] at h
      cases hce : consistencyEntry cols r with
      | error e => rw [hce] at h; simp at h
      | ok o =>
          rw [hce] at h
          cases hcr : consistencyRows cols rs with
          | error e => rw [hcr] at h; simp at h
          | ok rest =>
              rw [hcr] at h
              have hpure : pureConsistencyEntry cols r = o := by
                unfold pureConsistencyEntry
                rw [hce]
              cases o with
              | some entry =>
                  simp only [Except.ok.injEq] at h
                  subst h
                  rw [List.filterMap_cons, hpure, ← ih hcr]
              | none =>
                  simp only [Except.ok.injEq] at h
                  subst h
                  rw [List.filterMap_cons, hpure, ← ih hcr]

/-- C4 counterexample: a row with three parseable best-lap fields should
appear in the output per the claim, but with no NUMBER column the loop
body's `row['NUMBER']` raises `KeyError` outside the parse handler, so
the call raises instead of returning any output. -/
theorem c4_counterexample :
    calculate_consistency
        ⟨["BESTLAP_1", "BESTLAP_2", "BESTLAP_3"],
         [[some "0:1", some "0:2", some "0:3"]]⟩
      = .error "KeyError: NUMBER"
    ∧ 3 ≤ (parsedLaps ["BESTLAP_1", "BESTLAP_2", "BESTLAP_3"]
            [some "0:1", some "0:2", some "0:3"]).length :=
  ⟨rfl, by decide⟩

/-- C4 (amended): whenever `calculate_consistency` returns (which
requires every row with at least three parseable best-lap fields to have
a NUMBER label, else a `KeyError` propagates), the output consists
exactly of the records of the rows with at least three parseable
BESTLAP_1..BESTLAP_10 fields; every record carries at least three lap
times, its best lap is the minimum and its average the mean of those
times, its standard deviation squares to the population variance, its
consistency score is the inverse of the standard deviation plus 1/1000,
and the output is sorted descending by consistency score. -/
theorem c4_consistency_membership_and_metrics :
    ∀ (t : Table) (out : List ConsistencyRecord),
      calculate_consistency t = .ok out →
      out.Perm (t.rows.filterMap (pureConsistencyEntry t.cols))
      ∧ out.Sorted (fun a b =>
          1 / (Real.sqrt (popVar b.lapTimes) + 1 / 1000)
            ≤ 1 / (Real.sqrt (popVar a.lapTimes) + 1 / 1000))
      ∧ ∀ e ∈ out,
          3 ≤ e.lapTimes.length
          ∧ bestLap e.lapTimes ∈ e.lapTimes
          ∧ (∀ x ∈ e.lapTimes, bestLap e.lapTimes ≤ x)
          ∧ (e.lapTimes.length : ℚ) * meanQ e.lapTimes = e.lapTimes.sum
          ∧ Real.sqrt (popVar e.lapTimes) ^ 2 = (popVar e.lapTimes : ℝ)
          ∧ 1 / (Real.sqrt (popVar e.lapTimes) + 1 / 1000)
              * (Real.sqrt (popVar e.lapTimes) + 1 / 1000) = 1 := by
  intro t out h
  have hperm_sorted : out.Perm (t.rows.filterMap (pureConsistencyEntry t.cols))
      ∧ out.Sorted varLE := by
    unfold calculate_consistency at h
    cases hrows : t.rows.isEmpty with
    | true =>
        rw [hrows, if_pos rfl] at h
        cases h
        rw [List.isEmpty_iff.mp hrows]
        exact ⟨List.Perm.refl _, List.sorted_nil⟩
    | false =>
        rw [hrows] at h
        simp only [Bool.false_eq_true, if_false] at h
        cases hcr : consistencyRows t.cols t.rows with
        | error e => rw [hcr] at h; simp [Except.map] at h
        | ok es =>
            rw [hcr] at h
            simp only [Except.map, Except.ok.injEq] at h
            subst h
            rw [consistencyRows_ok hcr]
            exact ⟨List.perm_insertionSort varLE _, List.sorted_insertionSort varLE _⟩
  refine ⟨hperm_sorted.1, ?_, ?_⟩
  · exact hperm_sorted.2.imp (fun hab => score_antitone hab)
  · intro e he
    have hmem : e ∈ t.rows.filterMap (pureConsistencyEntry t.cols) :=
      hperm_sorted.1.mem_iff.mp he
    obtain ⟨r, -, hpe⟩ := List.mem_filterMap.mp hmem
    obtain ⟨hlaps, h3⟩ := pureConsistencyEntry_laps hpe
    rw [← hlaps] at h3
    have hne : e.lapTimes ≠ [] := by
      intro hnil
      rw [hnil] at h3
      simp at h3
    have hlen : (e.lapTimes.length : ℚ) ≠ 0 := by
      rw [Nat.cast_ne_zero]
      omega
    refine ⟨h3, bestLap_mem hne, bestLap_le, ?_, ?_, ?_⟩
    · rw [meanQ, mul_comm, div_mul_cancel₀ _ hlen]
    · exact Real.sq_sqrt (by exact_mod_cast popVar_nonneg e.lapTimes)
    · have hpos : (0 : ℝ) < Real.sqrt (popVar e.lapTimes) + 1 / 1000 :=
        add_pos_of_nonneg_of_pos (Real.sqrt_nonneg _) (by norm_num)
      exact one_div_mul_cancel (ne_of_gt hpos)

theorem c4_witness :
    calculate_consistency
        ⟨["NUMBER", "BESTLAP_1", "BESTLAP_2", "BESTLAP_3"],
         [[some "7", some "0:1", some "0:2", some "0:3"]]⟩
      = .ok [⟨" ", some "7", "", [(0 : ℚ) * 60 + 1, (0 : ℚ) * 60 + 2, (0 : ℚ) * 60 + 3]⟩]
    ∧ 3 ≤ ([(0 : ℚ) * 60 + 1, (0 : ℚ) * 60 + 2, (0 : ℚ) * 60 + 3]).length
    ∧ bestLap [(0 : ℚ) * 60 + 1, (0 : ℚ) * 60 + 2, (0 : ℚ) * 60 + 3]
        ∈ [(0 : ℚ) * 60 + 1, (0 : ℚ) * 60 + 2, (0 : ℚ) * 60 + 3] := by
  have h := c4_consistency_membership_and_metrics
    ⟨["NUMBER", "BESTLAP_1", "BESTLAP_2", "BESTLAP_3"],
     [[some "7", some "0:1", some "0:2", some "0:3"]]⟩
    [⟨" ", some "7", "", [(0 : ℚ) * 60 + 1, (0 : ℚ) * 60 + 2, (0 : ℚ) * 60 + 3]⟩] rfl
  have he := h.2.2 _ (List.mem_singleton.mpr rfl)
  exact ⟨rfl, he.1, he.2.1⟩

theorem charListLT_asymm : ∀ {a b : List Char},
    charListLT a b = true → charListLT b a = false := by
  intro a
  induction a with
  | nil =>
      intro b h
      cases b with
      | nil => simp [charListLT] at h
      | cons y ys => rfl
  | cons x xs ih =>
      intro b h
      cases b with
      | nil => simp [charListLT] at h
      | cons y ys =>
          simp only [charListLT] at h ⊢
          by_cases hxy : x < y
          · simp [hxy, lt_asymm hxy]
          · by_cases hyx : y < x
            · simp [hxy, hyx] at h
            · simp [hxy, hyx] at h ⊢
              exact ih h

theorem charListLT_trans : ∀ {a b c : List Char},
    charListLT a b = true → charListLT b c = true → charListLT a c = true := by
  intro a
  induction a with
  | nil =>
      intro b c h1 h2
      cases c with
      | nil =>
          cases b with
          | nil => simp [charListLT] at h1
          | cons y ys => simp [charListLT] at h2
      | cons z zs => rfl
  | cons x xs ih =>
      intro b c h1 h2
      cases b with
      | nil => simp [charListLT] at h1
      | cons y ys =>
          cases c with
          | nil => simp [charListLT] at h2
          | cons z zs =>
              simp only [charListLT] at h1 h2 ⊢
              by_cases hxy : x < y
              · by_cases hyz : y < z
                · simp [lt_trans hxy hyz]
                · by_cases hzy : z < y
                  · simp [hyz, hzy] at h2
                  · have hyzeq : y = z := le_antisymm (not_lt.mp hzy) (not_lt.mp hyz)
                    have hxz : x < z := by rw [← hyzeq]; exact hxy
                    simp [hxz]
              · by_cases hyx : y < x
                · simp [hxy, hyx] at h1
                · have hxyeq : x = y := le_antisymm (not_lt.mp hyx) (not_lt.mp hxy)
                  simp [hxy, hyx] at h1
                  by_cases hyz : y < z
                  · have hxz : x < z := by rw [hxyeq]; exact hyz
                    simp [hxz]
                  · by_cases hzy : z < y
                    · simp [hyz, hzy] at h2
                    · simp [hyz, hzy] at h2
                      have hxz : ¬x < z := by rw [hxyeq]; exact hyz
                      have hzx : ¬z < x := by rw [hxyeq]; exact hzy
                      simp [hxz, hzx]
                      exact ih h1 h2

theorem charListLT_total : ∀ (a b : List Char),
    charListLT a b = false → charListLT b a = false → a = b := by
  intro a
  induction a with
  | nil =>
      intro b h1 h2
      cases b with
      | nil => rfl
      | cons y ys => simp [charListLT] at h1
  | cons x xs ih =>
      intro b h1 h2
      cases b with
      | nil => simp [charListLT] at h2
      | cons y ys =>
          simp only [charListLT] at h1 h2
          by_cases hxy : x < y
          · simp [hxy] at h1
          · by_cases hyx : y < x
            · simp [hyx] at h2
            · have hxyeq : x = y := le_antisymm (not_lt.mp hyx) (not_lt.mp hxy)
              simp [hxy, hyx] at h1 h2
              rw [hxyeq, ih ys h1 h2]

theorem flCellLE_total : ∀ a b : Cell, flCellLE a b = true ∨ flCellLE b a = true := by
  intro a b
  cases a with
  | none =>
      cases b with
      | none => exact Or.inl rfl
      | some y => exact Or.inr rfl
  | some x =>
      cases b with
      | none => exact Or.inl rfl
      | some y =>
          simp only [flCellLE, strLEb, Bool.not_eq_true']
          cases hlt : charListLT y.data x.data with
          | false => exact Or.inl rfl
          | true => exact Or.inr (charListLT_asymm hlt)

theorem flCellLE_trans : ∀ {a b c : Cell},
    flCellLE a b = true → flCellLE b c = true → flCellLE a c = true := by
  intro a b c h1 h2
  cases a with
  | none =>
      cases b with
      | none => exact h2
      | some y => simp [flCellLE] at h1
  | some x =>
      cases c with
      | none => rfl
      | some z =>
          cases b with
          | none => simp [flCellLE] at h2
          | some y =>
              simp only [flCellLE, strLEb, Bool.not_eq_true'] at h1 h2 ⊢
              cases hza : charListLT z.data x.data with
              | false => rfl
              | true =>
                  exfalso
                  cases hyz : charListLT y.data z.data with
                  | true =>
                      have hcontra : charListLT y.data x.data = true :=
                        charListLT_trans hyz hza
                      rw [h1] at hcontra
                      exact Bool.false_ne_true hcontra
                  | false =>
                      have heq : z.data = y.data := charListLT_total z.data y.data h2 hyz
                      rw [heq, h1] at hza
                      exact Bool.false_ne_true hza

theorem projRow_length (cols : List String) (r : List Cell) :
    (projRow cols r).length = 8 := by
  unfold projRow
  rw [List.length_map]
  rfl

theorem addRank_length : ∀ (n : Nat) (l : List (List Cell)),
    (addRank n l).length = l.length := by
  intro n l
  induction l generalizing n with
  | nil => rfl
  | cons r rs ih => simp [addRank, ih]

theorem addRank_take : ∀ (n : Nat) (l : List (List Cell)), (∀ r ∈ l, r.length = 8) →
    (addRank n l).map (fun r => r.take 8) = l := by
  intro n l
  induction l generalizing n with
  | nil => intro h; rfl
  | cons r rs ih =>
      intro h
      simp only [addRank, List.map_cons]
      have h8 : r.length = 8 := h r (List.mem_cons_self r rs)
      have htake : (r ++ [some (toString n)]).take 8 = r := by
        rw [← h8]
        exact List.take_left r _
      rw [htake, ih (n + 1) (fun r' hr' => h r' (List.mem_cons_of_mem r hr'))]

theorem addRank_lasts : ∀ (n : Nat) (l : List (List Cell)),
    (addRank n l).map (fun r => r.getLast?)
      = (List.range' n l.length).map (fun i => some (some (toString i))) := by
  intro n l
  induction l generalizing n with
  | nil => rfl
  | cons r rs ih =>
      simp only [addRank, List.map_cons, List.length_cons, List.range'_succ]
      rw [List.getLast?_concat, ih (n + 1)]

theorem flKeyCell_take (r : List Cell) : flKeyCell (r.take 8) = flKeyCell r := by
  unfold flKeyCell
  rw [List.getElem?_take_of_lt (by norm_num : (4 : Nat) < 8)]

/-- C6 counterexample: a non-empty table that has FL_TIME but lacks the
other columns of the selection `df[[...]]` makes `analyze_fastest_laps`
raise `KeyError` instead of returning a ranked table. -/
theorem c6_counterexample :
    analyze_fastest_laps ⟨["FL_TIME"], [[some "1:23.456"]]⟩ = .error "KeyError" := rfl

/-- C6 (amended): for every non-empty results table containing FL_TIME
and the other seven selected fields (POSITION, NUMBER, DRIVER_FIRSTNAME,
DRIVER_SECONDNAME, FL_LAPNUM, FL_KPH, TEAM), `analyze_fastest_laps`
returns the selected rows sorted ascending by the FL_TIME string with an
appended FL_RANK column numbered 1..n (the underlying sort is pandas'
default quicksort, so equal keys carry no stability guarantee); when
FL_TIME is present but any other selected field is missing, a `KeyError`
is raised instead.  On rows with FL_TIME values 1:23.456, 1:22.100,
1:25.000 the 1:22.100 row comes first with FL_RANK 1. -/
theorem c6_fastest_laps_sorted_ranked :
    (∀ t : Table, t.rows ≠ [] → (∀ c ∈ flSelectedCols, t.cols.contains c = true) →
      ∃ out, analyze_fastest_laps t = .ok out
        ∧ out.cols = flSelectedCols ++ ["FL_RANK"]
        ∧ out.rows.length = t.rows.length
        ∧ (out.rows.map (fun r => r.take 8)).Perm (t.rows.map (projRow t.cols))
        ∧ out.rows.Sorted flRel
        ∧ out.rows.map (fun r => r.getLast?)
            = (List.range' 1 t.rows.length).map (fun i => some (some (toString i))))
    ∧ analyze_fastest_laps
        ⟨flSelectedCols,
         [[some "1", some "11", some "A", some "B", some "1:23.456", some "10", some "150", some "T1"],
          [some "2", some "22", some "C", some "D", some "1:22.100", some "11", some "151", some "T2"],
          [some "3", some "33", some "E", some "F", some "1:25.000", some "12", some "152", some "T3"]]⟩
      = .ok ⟨flSelectedCols ++ ["FL_RANK"],
         [[some "2", some "22", some "C", some "D", some "1:22.100", some "11", some "151", some "T2", some "1"],
          [some "1", some "11", some "A", some "B", some "1:23.456", some "10", some "150", some "T1", some "2"],
          [some "3", some "33", some "E", some "F", some "1:25.000", some "12", some "152", some "T3", some "3"]]⟩ := by
  constructor
  · intro t hne hcols
    haveI htot : IsTotal (List Cell) flRel :=
      ⟨fun a b => by
        unfold flRel
        rcases flCellLE_total (flKeyCell a) (flKeyCell b) with h | h
        · exact Or.inl h
        · exact Or.inr h⟩
    haveI htr : IsTrans (List Cell) flRel :=
      ⟨fun a b c h1 h2 => flCellLE_trans h1 h2⟩
    have hflt : t.cols.contains "FL_TIME" = true := hcols "FL_TIME" (by decide)
    have hempty : t.rows.isEmpty = false := by
      cases hr : t.rows with
      | nil => exact absurd hr hne
      | cons a l => rfl
    have hall : flSelectedCols.all (fun c => t.cols.contains c) = true := by
      rw [List.all_eq_true]
      intro c hcmem
      exact hcols c hcmem
    unfold analyze_fastest_laps
    rw [hempty, hflt, hall]
    simp only [Bool.not_true, Bool.or_false, Bool.false_eq_true, if_false, if_true]
    have hlen8 : ∀ r ∈ List.insertionSort flRel (t.rows.map (projRow t.cols)),
        r.length = 8 := by
      intro r hr
      rw [List.mem_insertionSort] at hr
      obtain ⟨r0, -, rfl⟩ := List.mem_map.mp hr
      exact projRow_length t.cols r0
    have htake := addRank_take 1 (List.insertionSort flRel (t.rows.map (projRow t.cols))) hlen8
    refine ⟨_, rfl, rfl, ?_, ?_, ?_, ?_⟩
    · rw [addRank_length, List.length_insertionSort, List.length_map]
    · rw [htake]
      exact List.perm_insertionSort flRel _
    · have hsorted : List.Sorted flRel (List.insertionSort flRel (t.rows.map (projRow t.cols))) :=
        List.sorted_insertionSort flRel _
      have hmapped : List.Sorted flRel
          ((addRank 1 (List.insertionSort flRel (t.rows.map (projRow t.cols)))).map
            (fun r => r.take 8)) := by
        rw [htake]
        exact hsorted
      have hp := List.pairwise_map.mp hmapped
      refine hp.imp ?_
      intro a b hab
      unfold flRel at hab ⊢
      rwa [flKeyCell_take, flKeyCell_take] at hab
    · rw [addRank_lasts, List.length_insertionSort, List.length_map]
  · rfl

theorem c6_witness :
    ∃ out, analyze_fastest_laps
        ⟨flSelectedCols,
         [[some "4", some "44", some "G", some "H", some "1:24.000", some "13", some "153", some "T4"],
          [some "5", some "55", some "I", some "J", some "1:21.000", some "14", some "154", some "T5"]]⟩
      = .ok out
      ∧ out.cols = flSelectedCols ++ ["FL_RANK"]
      ∧ out.rows.length = 2
      ∧ (out.rows.map (fun r => r.take 8)).Perm
          ([[some "4", some "44", some "G", some "H", some "1:24.000", some "13", some "153", some "T4"],
            [some "5", some "55", some "I", some "J", some "1:21.000", some "14", some "154", some "T5"]].map
            (projRow flSelectedCols))
      ∧ out.rows.Sorted flRel
      ∧ out.rows.map (fun r => r.getLast?)
          = (List.range' 1 2).map (fun i => some (some (toString i))) :=
  c6_fastest_laps_sorted_ranked.1
    ⟨flSelectedCols,
     [[some "4", some "44", some "G", some "H", some "1:24.000", some "13", some "153", some "T4"],
      [some "5", some "55", some "I", some "J", some "1:21.000", some "14", some "154", some "T5"]]⟩
    (by decide) (by decide)

/-- C5: each parser entry point is a total function of the read outcome
(the Python bodies catch every exception and return an empty frame), the
row count of the result equals the row count delivered by the read (zero
on a read error), and a header-only file (a successful read with zero
data rows) parses to a table with zero rows. -/
theorem c5_parsers_never_raise :
    (∀ r : ReadResult,
        (parse_race_results r).rows.length = readRowCount r
        ∧ (parse_weather_data r).rows.length = readRowCount r
        ∧ (parse_lap_times r).rows.length = readRowCount r
        ∧ (parse_best_laps r).rows.length = readRowCount r)
    ∧ (∀ cols : List String,
        (parse_race_results (.ok ⟨cols, []⟩)).rows = []
        ∧ (parse_weather_data (.ok ⟨cols, []⟩)).rows = []
        ∧ (parse_lap_times (.ok ⟨cols, []⟩)).rows = []
        ∧ (parse_best_laps (.ok ⟨cols, []⟩)).rows = []) := by
  have hlen : ∀ r : ReadResult,
      (parse_race_results r).rows.length = readRowCount r
      ∧ (parse_weather_data r).rows.length = readRowCount r
      ∧ (parse_lap_times r).rows.length = readRowCount r
      ∧ (parse_best_laps r).rows.length = readRowCount r := by
    intro r
    cases r with
    | error e => exact ⟨rfl, rfl, rfl, rfl⟩
    | ok t =>
        refine ⟨?_, ?_, ?_, ?_⟩ <;>
          simp [parse_race_results, parse_weather_data, parse_lap_times, parse_best_laps,
                coerceColumns_rows_length, addTimestamp_rows_length, readRowCount,
                normalize_columns]
  refine ⟨hlen, ?_⟩
  intro cols
  have h := hlen (.ok ⟨cols, []⟩)
  refine ⟨?_, ?_, ?_, ?_⟩
  · exact List.length_eq_zero.mp h.1
  · exact List.length_eq_zero.mp h.2.1
  · exact List.length_eq_zero.mp h.2.2.1
  · exact List.length_eq_zero.mp h.2.2.2

/-- C10: every analyzer operation returns its empty or default result on
an empty input table, and `generate_race_summary` returns the default
summary when the results entry is absent or empty; none of these paths
can raise. -/
theorem c10_empty_inputs :
    (∀ (cols : List String) (θ : ℚ), identify_key_battles ⟨cols, []⟩ θ = [])
    ∧ (∀ cols : List String, analyze_fastest_laps ⟨cols, []⟩ = .ok Table.empty)
    ∧ (∀ cols : List String, calculate_consistency ⟨cols, []⟩ = .ok [])
    ∧ (∀ (cols : List String) (g : String), get_position_changes ⟨cols, []⟩ g = [])
    ∧ (∀ cols : List String, analyze_race_progression ⟨cols, []⟩ = .ok Progression.default)
    ∧ (∀ d : List (String × Table),
        d.lookup "results" = none → generate_race_summary d = .ok RaceSummary.default)
    ∧ (∀ (d : List (String × Table)) (cols : List String),
        d.lookup "results" = some ⟨cols, []⟩ →
          generate_race_summary d = .ok RaceSummary.default) := by
  refine ⟨?_, ?_, ?_, ?_, ?_, ?_, ?_⟩
  · intro cols θ; simp [identify_key_battles]
  · intro cols; simp [analyze_fastest_laps]
  · intro cols; simp [calculate_consistency]
  · intro cols g; simp [get_position_changes]
  · intro cols; simp [analyze_race_progression]
  · intro d h; simp [generate_race_summary, h]
  · intro d cols h; simp [generate_race_summary, h]

theorem c10_witness :
    identify_key_battles ⟨["GAP_PREV"], []⟩ 5 = []
    ∧ generate_race_summary [] = .ok RaceSummary.default
    ∧ generate_race_summary [("results", (⟨["POSITION"], []⟩ : Table))]
        = .ok RaceSummary.default :=
  ⟨c10_empty_inputs.1 ["GAP_PREV"] 5,
   c10_empty_inputs.2.2.2.2.2.1 [] rfl,
   c10_empty_inputs.2.2.2.2.2.2 [("results", (⟨["POSITION"], []⟩ : Table))] ["POSITION"] rfl⟩

theorem c9_witness :
    (normalize_columns ⟨["POS", "DRIVER"], [[some "1", some "A"]]⟩).1
      = ⟨["POS", "DRIVER"], [[some "1", some "A"]]⟩ :=
  (c9_mutation_is_strip_only ⟨["POS", "DRIVER"], [[some "1", some "A"]]⟩).2.2 (by decide)

end RaceStory
